import Mathlib

/-!
Verification of the Willy twitter-client core (packages/client-twitter/src/post.ts
and the unnamed environment/post module) against its natural-language specification.

The TypeScript source is shallowly embedded: JS strings become `List Char` (or
`String` where per-character behaviour is irrelevant), JS numbers holding
timestamps become `Int`, `Math.random()` draws and probabilities become `ℚ`,
JS `Map`s become association lists, and the external collaborators (feed
client, generation pipeline, conversation store) become oracle parameters.
External side effects that no claim observes (logging, conversation-store
writes) are elided.
-/

namespace Willy

/-! ## JS string primitives used by `truncateToCompleteSentence` -/

/-- The whitespace characters recognised by JS `String.prototype.trim`
(restricted to the ASCII range used by this program). -/
def isJsWhitespace (c : Char) : Bool :=
  c = ' ' || c = '\t' || c = '\n' || c = '\r' || c = '\x0b' || c = '\x0c'

/-- JS `s.trim()`: strip leading and trailing whitespace. -/
def jsTrim (s : List Char) : List Char :=
  ((s.dropWhile isJsWhitespace).reverse.dropWhile isJsWhitespace).reverse

/-- JS `s.lastIndexOf(c, fromIdx)` for a single-character search string:
the largest index `i ≤ fromIdx` with `s[i] = c`, or `-1` if none exists. -/
def jsLastIndexOf (s : List Char) (c : Char) (fromIdx : Nat) : Int :=
  let t := s.take (fromIdx + 1)
  match t.reverse.findIdx? (fun x => x = c) with
  | none => -1
  | some j => ((t.length - 1 - j : Nat) : Int)

/-- JS `s.slice(0, e)`: a negative end index counts from the end of the
string (`max (len + e) 0`), a positive one is clamped at the length. -/
def jsSliceTo (s : List Char) (e : Int) : List Char :=
  if 0 ≤ e then s.take e.toNat else s.take (s.length - (-e).toNat)

def MAX_TWEET_LENGTH : Nat := 280

/-- Embedding of `truncateToCompleteSentence` (identical in both source files):
return short text unchanged; otherwise cut at the last `'.'` found from
index 280, else at the last `' '` found from index 280 (appending `"..."`),
else hard-cut at 277 and append `"..."`. -/
def truncateToCompleteSentence (text : List Char) : List Char :=
  if text.length ≤ MAX_TWEET_LENGTH then
    text
  else
    let truncatedAtPeriod := jsSliceTo text (jsLastIndexOf text '.' MAX_TWEET_LENGTH + 1)
    if 0 < (jsTrim truncatedAtPeriod).length then
      jsTrim truncatedAtPeriod
    else
      let truncatedAtSpace := jsSliceTo text (jsLastIndexOf text ' ' MAX_TWEET_LENGTH)
      if 0 < (jsTrim truncatedAtSpace).length then
        jsTrim truncatedAtSpace ++ "...".data
      else
        jsTrim (jsSliceTo text ((MAX_TWEET_LENGTH : Int) - 3)) ++ "...".data

/-- `truncateToCompleteSentence` on `String`s (used by the posting pipeline). -/
def truncateStr (s : String) : String :=
  (truncateToCompleteSentence s.data).asString

/-! ## Shared data model -/

/-- The fields of the external `Tweet` objects that the verified core reads.
Ids are kept as strings, as in the source; `BigInt(id)` is modelled by
`jsBigInt`. -/
structure Tweet where
  id : String
  userId : String
  conversationId : String
  text : String
  inReplyToStatusId : Option String
deriving DecidableEq

/-- JS `BigInt(s)` on the (decimal) id strings produced by the feed;
a malformed id (on which `BigInt` would throw) maps to 0. -/
def jsBigInt (s : String) : Nat :=
  if s.data.all (fun c => c.isDigit) && !s.data.isEmpty then
    s.data.foldl (fun n c => n * 10 + (c.toNat - '0'.toNat)) 0
  else 0

/-- A JS `Map`/`Record` lookup `m.get(k) ?? d` / `m[k] || d`. -/
def mapGetD {α : Type} (m : List (String × α)) (k : String) (d : α) : α :=
  (m.lookup k).getD d

/-- A JS `Map.set(k, v)`: the latest binding wins. -/
def mapSet {α : Type} (m : List (String × α)) (k : String) (v : α) : List (String × α) :=
  (k, v) :: m.filter (fun p => p.1 ≠ k)

/-! ## RateLimitTracker (post.ts `TwitterInteractionClient` state) -/

/-- The interaction limits configured in the `TwitterInteractionClient`
constructor. -/
structure InteractionLimits where
  maxRepliesPerThread : Nat
  maxRepliesPerUser : Nat
  minTimeBetweenReplies : Int
  replyProbability : ℚ

/-- The three tracking maps of `TwitterInteractionClient`:
`recentReplies` (userId → reply count), `threadReplies`
(conversationId → reply count), `lastReplyTime` (userId → timestamp). -/
structure RateState where
  recentReplies : List (String × Nat)
  threadReplies : List (String × Nat)
  lastReplyTime : List (String × Int)
deriving DecidableEq

/-- Embedding of `canReplyToUser`: reply count below the per-user limit and
enough time elapsed since the last recorded reply, with missing map entries
defaulting to `0`. -/
def canReplyToUser (limits : InteractionLimits) (rate : RateState) (now : Int)
    (userId : String) : Bool :=
  let replyCount := mapGetD rate.recentReplies userId 0
  let lastReplyTime := mapGetD rate.lastReplyTime userId 0
  let timeSinceLastReply := now - lastReplyTime
  decide (replyCount < limits.maxRepliesPerUser) &&
    decide (limits.minTimeBetweenReplies ≤ timeSinceLastReply)

/-- Embedding of `canReplyInThread`. -/
def canReplyInThread (limits : InteractionLimits) (rate : RateState)
    (conversationId : String) : Bool :=
  decide (mapGetD rate.threadReplies conversationId 0 < limits.maxRepliesPerThread)

/-- Embedding of `updateInteractionTracking`: increment both counters and
stamp the per-user last-reply time. -/
def updateInteractionTracking (rate : RateState) (userId conversationId : String)
    (now : Int) : RateState :=
  { recentReplies :=
      mapSet rate.recentReplies userId (mapGetD rate.recentReplies userId 0 + 1),
    threadReplies :=
      mapSet rate.threadReplies conversationId
        (mapGetD rate.threadReplies conversationId 0 + 1),
    lastReplyTime := mapSet rate.lastReplyTime userId now }

/-! ## InteractionScheduler batch (post.ts `handleTwitterInteractions`) -/

/-- The `action` field of the object returned by `handleTweet`
(`"RESPOND"`, `"IGNORE"`, `"STOP"`, or `"ERROR"` after a caught send failure). -/
inductive Action where
  | respond
  | ignore
  | stop
  | err
deriving DecidableEq

instance {ε α : Type} [DecidableEq ε] [DecidableEq α] : DecidableEq (Except ε α) :=
  fun a b =>
    match a, b with
    | .ok x, .ok y =>
      if h : x = y then .isTrue (by rw [h]) else .isFalse (by simp [h])
    | .error x, .error y =>
      if h : x = y then .isTrue (by rw [h]) else .isFalse (by simp [h])
    | .ok _, .error _ => .isFalse (by simp)
    | .error _, .ok _ => .isFalse (by simp)

/-- The mutable state the batch loop touches: the checkpoint
`client.lastCheckedTweetId` (a nullable `BigInt`) and the rate-limit maps. -/
structure InteractionState where
  lastCheckedTweetId : Option Nat
  rate : RateState
deriving DecidableEq

/-- The guard `!this.client.lastCheckedTweetId || BigInt(tweet.id) > lastCheckedTweetId`
deciding whether a candidate is considered at all. -/
def isConsidered (st : InteractionState) (t : Tweet) : Bool :=
  match st.lastCheckedTweetId with
  | none => true
  | some c => decide (c < jsBigInt t.id)

/-- One iteration of the `for (const tweet of uniqueTweetCandidates)` loop.
`draw` is the `Math.random()` value of the probability check and `handler`
the outcome of the whole awaited candidate block (`buildConversationThread`
+ `handleTweet`): `.ok a` when it completes with action `a`, `.error ()`
when it throws.  Note that the two `continue` branches (rate limits,
probability) leave the checkpoint untouched, and that a thrown error
propagates out of the loop. -/
def processCandidate (limits : InteractionLimits) (now : Int)
    (st : InteractionState) (t : Tweet) (draw : ℚ)
    (handler : Except Unit Action) : Except Unit InteractionState :=
  if isConsidered st t then
    if !(canReplyToUser limits st.rate now t.userId &&
         canReplyInThread limits st.rate t.conversationId) then
      .ok st
    else if limits.replyProbability < draw then
      .ok st
    else
      match handler with
      | .error e => .error e
      | .ok a =>
        .ok { lastCheckedTweetId := some (jsBigInt t.id),
              rate :=
                if a = Action.respond then
                  updateInteractionTracking st.rate t.userId t.conversationId now
                else st.rate }
  else
    .ok st

/-- The batch loop with its surrounding `try`/`catch`: candidates are
processed in order; a thrown error is caught at the batch level, so the
state reached so far is kept and the remaining candidates of the batch are
not processed.  The function is total — the error never escapes, so the
polling loop survives. -/
def handleBatch (limits : InteractionLimits) (now : Int) :
    InteractionState → List (Tweet × ℚ × Except Unit Action) → InteractionState
  | st, [] => st
  | st, (t, d, h) :: rest =>
    match processCandidate limits now st t d h with
    | .ok st' => handleBatch limits now st' rest
    | .error _ => st

/-- `[...new Set(tweetCandidates)]`: deduplication keeping first
occurrences (`seen` accumulates the elements already emitted). -/
def dedupKeepFirstAux (seen : List Tweet) : List Tweet → List Tweet
  | [] => []
  | t :: rest =>
    if t ∈ seen then dedupKeepFirstAux seen rest
    else t :: dedupKeepFirstAux (t :: seen) rest

def dedupKeepFirst (l : List Tweet) : List Tweet :=
  dedupKeepFirstAux [] l

/-- Codepoint-order comparison of id strings, modelling
`a.id.localeCompare(b.id) ≤ 0` for the ASCII ids the feed produces. -/
def idLe (a b : Tweet) : Bool :=
  decide (a.id < b.id) || decide (a.id = b.id)

def orderedInsertById (t : Tweet) : List Tweet → List Tweet
  | [] => [t]
  | x :: xs => if idLe t x then t :: x :: xs else x :: orderedInsertById t xs

def sortById : List Tweet → List Tweet
  | [] => []
  | t :: rest => orderedInsertById t (sortById rest)

/-- Embedding of `handleTwitterInteractions` for one polling iteration:
dedup, sort by id, drop the agent's own tweets, then run the batch loop.
The per-candidate randomness and handler outcomes are supplied as oracles. -/
def handleTwitterInteractions (limits : InteractionLimits) (selfId : String)
    (now : Int) (st : InteractionState) (candidates : List Tweet)
    (draw : Tweet → ℚ) (handler : Tweet → Except Unit Action) : InteractionState :=
  let uniqueTweetCandidates :=
    (sortById (dedupKeepFirst candidates)).filter (fun t => decide (t.userId ≠ selfId))
  handleBatch limits now st
    (uniqueTweetCandidates.map (fun t => (t, draw t, handler t)))

/-! ## Special interactions (part_000 `TwitterPostClient`) -/

/-- The `SpecialInteraction` record of the environment module. -/
structure SpecialInteraction where
  handle : String
  topics : List String
  templates : List String
  probability : ℚ
deriving DecidableEq

/-- lodash `sample(l)`: a uniformly random element, `undefined` on an empty
list.  The random choice is supplied as an index `i`; `i % l.length` makes
every index valid exactly when the list is nonempty. -/
def sample {α : Type} (l : List α) (i : Nat) : Option α :=
  l.get? (i % l.length)

/-- The configured interaction table, keyed by type (a `Record`, iterated
in insertion order). -/
abbrev SpecialTable := List (String × SpecialInteraction)

/-- Embedding of `shouldTriggerSpecialInteraction`: unknown type never
fires; a type on cooldown (`now - lastTime < cooldown`, with a missing
`lastSpecialInteraction` entry defaulting to `0`, folded into the total map
`lastSpecial`) never fires; otherwise fire iff the `Math.random()` draw is
strictly below the configured probability. -/
def shouldTriggerSpecialInteraction (specials : SpecialTable)
    (lastSpecial : String → Int) (cooldown : Int) (ty : String) (now : Int)
    (draw : ℚ) : Bool :=
  match specials.lookup ty with
  | none => false
  | some interaction =>
    if now - lastSpecial ty < cooldown then false
    else decide (draw < interaction.probability)

/-- The `PostResponse` record of part_000. -/
structure PostResponse where
  content : String
  isSpecialInteraction : Bool
  interactionType : Option String
deriving DecidableEq

/-- Embedding of `generateSpecialTweet`: sample a template and a topic
(`sample` of an empty list, or an empty string — falsy in JS — aborts
without stamping), compose `"<handle> <template>"`, and stamp
`lastSpecialInteraction[type] = Date.now()` before anything is sent.
Returns the response together with the updated stamp map. -/
def generateSpecialTweet (specials : SpecialTable) (lastSpecial : String → Int)
    (ty : String) (now : Int) (tIdx topIdx : Nat) :
    Option PostResponse × (String → Int) :=
  match specials.lookup ty with
  | none => (none, lastSpecial)
  | some interaction =>
    match sample interaction.templates tIdx, sample interaction.topics topIdx with
    | some template, some topic =>
      if template = "" || topic = "" then (none, lastSpecial)
      else
        (some { content := interaction.handle ++ " " ++ template,
                isSpecialInteraction := true,
                interactionType := some ty },
         fun x => if x = ty then now else lastSpecial x)
    | _, _ => (none, lastSpecial)

/-- The special-interaction head of `generateTweetContent`: sample a random
type from the configured keys, gate it through
`shouldTriggerSpecialInteraction`, and on success delegate to
`generateSpecialTweet`. -/
def trySpecialInteraction (specials : SpecialTable) (cooldown : Int)
    (lastSpecial : String → Int) (now : Int) (typeIdx : Nat) (draw : ℚ)
    (tIdx topIdx : Nat) : Option PostResponse × (String → Int) :=
  match sample (specials.map Prod.fst) typeIdx with
  | none => (none, lastSpecial)
  | some randomType =>
    if shouldTriggerSpecialInteraction specials lastSpecial cooldown randomType now draw then
      generateSpecialTweet specials lastSpecial randomType now tIdx topIdx
    else (none, lastSpecial)

/-- The per-call inputs of one selection step: current time plus the random
type choice, the trigger draw, and the template/topic choices. -/
structure SelectionCall where
  now : Int
  typeIdx : Nat
  draw : ℚ
  tIdx : Nat
  topIdx : Nat

/-- A sequence of selection calls threading the cooldown-stamp map through. -/
def runSelections (specials : SpecialTable) (cooldown : Int) :
    (String → Int) → List SelectionCall → ((String → Int) × List (Option PostResponse))
  | lastSpecial, [] => (lastSpecial, [])
  | lastSpecial, c :: cs =>
    let step := trySpecialInteraction specials cooldown lastSpecial c.now
      c.typeIdx c.draw c.tIdx c.topIdx
    let rest := runSelections specials cooldown step.2 cs
    (rest.1, step.1 :: rest.2)

/-! ## Posting pipeline (part_000 `generateTweetContent` / `generateNewTweet`) -/

/-- JS `.replaceAll(/\\n/g, "\n")` on the generated text. -/
def replaceEscapedNewlines : List Char → List Char
  | [] => []
  | '\\' :: 'n' :: rest => '\n' :: replaceEscapedNewlines rest
  | c :: rest => c :: replaceEscapedNewlines rest

/-- The formatting applied to generated (non-special) content:
collapse escaped newlines, then trim. -/
def formatGenerated (s : String) : String :=
  (jsTrim (replaceEscapedNewlines s.data)).asString

/-- The observable state of the part_000 `TwitterPostClient`:
the cooldown stamps, the schedule's `lastPostTime`, the cached timeline,
the texts actually handed to `sendTweet`, and the persisted
`twitter/<user>/lastPost` cache entry `(timestamp, type)`. -/
structure PostClientState where
  lastSpecial : String → Int
  lastPostTime : Int
  cachedTimeline : Option (List Tweet)
  sentTweets : List String
  lastPostCache : Option (Int × String)

/-- Embedding of `generateTweetContent`: try a special interaction first
(committing its cooldown stamp); otherwise fill the timeline cache when it
is empty (`fetchedTimeline` is the feed-client oracle) and return the
formatted, truncated generated text (`genText` is the generation oracle). -/
def generateTweetContent (specials : SpecialTable) (cooldown : Int)
    (st : PostClientState) (now : Int) (typeIdx : Nat) (draw : ℚ)
    (tIdx topIdx : Nat) (genText : String) (fetchedTimeline : List Tweet) :
    PostResponse × PostClientState :=
  let step := trySpecialInteraction specials cooldown st.lastSpecial now typeIdx draw tIdx topIdx
  let st1 := { st with lastSpecial := step.2 }
  match step.1 with
  | some resp => (resp, st1)
  | none =>
    let st2 :=
      match st1.cachedTimeline with
      | some _ => st1
      | none => { st1 with cachedTimeline := some fetchedTimeline }
    ({ content := truncateStr (formatGenerated genText),
       isSpecialInteraction := false,
       interactionType := none },
     st2)

/-- Embedding of `generateNewTweet` (part_000): generate content (with its
side effects), then abort on empty content, abort on dry-run, abort with
state unchanged when `sendTweet` throws (`sendOk = false`, caught by the
surrounding `try`), and otherwise record the send, prepend the resulting
tweet (`resultTweet`, parsed from the send response) to the cached
timeline, persist the last-post cache entry, and update `lastPostTime`.
The `isPosting` re-entrancy guard is not modelled: a single call is
embedded. -/
def generateNewTweet (specials : SpecialTable) (cooldown : Int)
    (st : PostClientState) (dryRun : Bool) (now : Int) (typeIdx : Nat)
    (draw : ℚ) (tIdx topIdx : Nat) (genText : String)
    (fetchedTimeline : List Tweet) (sendOk : Bool) (resultTweet : Tweet) :
    PostClientState :=
  let gen := generateTweetContent specials cooldown st now typeIdx draw tIdx topIdx
    genText fetchedTimeline
  let resp := gen.1
  let st1 := gen.2
  if resp.content = "" then st1
  else if dryRun then st1
  else if sendOk then
    { st1 with
      sentTweets := resp.content :: st1.sentTweets,
      cachedTimeline := some (resultTweet :: st1.cachedTimeline.getD []),
      lastPostCache :=
        some (now, if resp.isSpecialInteraction then resp.interactionType.getD "" else "normal"),
      lastPostTime := now }
  else st1

/-! ## Special interactions (post.ts `TwitterPostClient`, claim C10) -/

/-- The hard-coded `SPECIAL_INTERACTIONS` table of post.ts, in insertion
order. -/
def SPECIAL_INTERACTIONS : SpecialTable :=
  [("tate",
    { handle := "@Cobratate",
      topics := ["sold 2M Willy", "paper hands", "missing out", "future regret"],
      templates :=
        ["Imagine selling your community-gifted 2M Willy... some people just don\x27t see the vision",
         "When Willy hits a billion, wonder how that 2M sale will feel",
         "Paper hands never make generational wealth... just saying",
         "Some influencers talk diamond hands but fold faster than a lawn chair"],
      probability := 15/100 }),
   ("hailey",
    { handle := "@HaileyWelchX",
      topics := ["partnership", "Willy tuah Billy", "moon mission", "collaboration"],
      templates :=
        ["Let\x27s take this Willy tuah Billy together",
         "Two visionaries, one mission - Willy tuah Billy",
         "When are we partnering to make history?",
         "Your energy + my vision = Willy tuah Billy"],
      probability := 15/100 }),
   ("dolos",
    { handle := "@dolos_diary",
      topics := ["small willy", "tiny holdings", "weak position"],
      templates :=
        ["Heard someone\x27s holding a microscopic bag... must be rough",
         "Some people compensate for their tiny Willy with big talk",
         "Not everyone can handle a big Willy, clearly",
         "Size matters in this game, and someone\x27s coming up short",
         "While others play with their mini Willies, we\x27re building generational wealth"],
      probability := 15/100 })]

/-- The cumulative-probability scan of `shouldGenerateSpecialInteraction`:
walk the entries in order, accumulating probabilities, and return the first
type whose cumulative bound exceeds the draw. -/
def pickInteraction : SpecialTable → ℚ → ℚ → Option String
  | [], _, _ => none
  | (ty, interaction) :: rest, cumulativeProbability, random =>
    let cumulativeProbability := cumulativeProbability + interaction.probability
    if random < cumulativeProbability then some ty
    else pickInteraction rest cumulativeProbability random

/-- Embedding of post.ts `shouldGenerateSpecialInteraction`: when the
previous call stored an interaction type, clear it and return `null`
(no back-to-back specials); otherwise scan the table against the draw,
storing a returned type.  Returns `(returned type, new lastInteractionType)`. -/
def shouldGenerateSpecialInteraction (lastInteractionType : Option String)
    (random : ℚ) : Option String × Option String :=
  match lastInteractionType with
  | some _ => (none, none)
  | none =>
    match pickInteraction SPECIAL_INTERACTIONS 0 random with
    | some ty => (some ty, some ty)
    | none => (none, none)

/-! ## ThreadBuilder (post.ts `buildConversationThread`) -/

/-- Accumulator of the recursive `processThread`: the per-call visited set,
the thread built so far (`unshift` = cons, so the root ends up first), and
the number of `processThread` invocations. -/
structure ThreadAcc where
  visited : List String
  thread : List Tweet
  visits : Nat

/-- Embedding of the inner `processThread`.  The remaining-depth budget
`maxReplies - depth` is the fuel: the source returns as soon as
`depth >= maxReplies`.  Already-visited ids return without re-adding; the
parent is fetched through the feed-client oracle `getTweet`, whose `none`
stands for both an absent parent and a caught fetch error.  The
conversation-store write-through for unseen tweets is an external side
effect no claim observes and is elided. -/
def processThread (getTweet : String → Option Tweet) :
    Nat → Tweet → ThreadAcc → ThreadAcc
  | 0, _, acc => { acc with visits := acc.visits + 1 }
  | fuel + 1, t, acc =>
    if t.id ∈ acc.visited then
      { acc with visits := acc.visits + 1 }
    else
      let acc' : ThreadAcc :=
        { visited := t.id :: acc.visited,
          thread := t :: acc.thread,
          visits := acc.visits + 1 }
      match t.inReplyToStatusId with
      | none => acc'
      | some parentId =>
        match getTweet parentId with
        | none => acc'
        | some parentTweet => processThread getTweet fuel parentTweet acc'

/-- Embedding of `buildConversationThread`: run `processThread` from the
candidate at depth 0 with fresh visited set and thread. -/
def buildConversationThread (getTweet : String → Option Tweet)
    (maxReplies : Nat) (tweet : Tweet) : ThreadAcc :=
  processThread getTweet maxReplies tweet { visited := [], thread := [], visits := 0 }

/-! ## Concrete fixtures for witnesses and counterexamples -/

/-- One half and nine tenths as raw (already normalised) rationals, so that
kernel evaluation of the probability comparisons does not go through the
irreducible `Rat` field arithmetic. -/
def half : ℚ := ⟨1, 2, by decide, by decide⟩

def pNine : ℚ := ⟨9, 10, by decide, by decide⟩

/-- The default limits built in the `TwitterInteractionClient` constructor:
2 replies per thread, 5 per user, 5 minutes between replies,
reply probability 0.5. -/
def limitsD : InteractionLimits := ⟨2, 5, 300000, half⟩

/-- Empty tracking maps (client start-up state). -/
def rate0 : RateState := ⟨[], [], []⟩

/-- An interaction state whose checkpoint sits at id 5. -/
def st5 : InteractionState := ⟨some 5, rate0⟩

def tw10 : Tweet := ⟨"10", "userA", "conv1", "hello", none⟩

def tw20 : Tweet := ⟨"20", "userB", "conv2", "hi", none⟩

/-- The state produced by handling `tw10` with a RESPOND outcome from `st5`. -/
def st10r : InteractionState :=
  ⟨some 10, updateInteractionTracking rate0 "userA" "conv1" 1000000000000⟩

/-- A candidate whose `inReplyToStatusId` points at itself. -/
def twSelf : Tweet := ⟨"7", "u", "c", "x", some "7"⟩

/-- A feed on which fetching id "7" returns the self-replying tweet. -/
def selfFeed : String → Option Tweet :=
  fun s => if s = "7" then some twSelf else none

/-- A one-entry special-interaction configuration with probability 1. -/
def specialsC : SpecialTable :=
  [("tate", ⟨"@Cobratate", ["paper hands"], ["test template"], 1⟩)]

/-- Fresh part_000 post-client state. -/
def pst0 : PostClientState := ⟨fun _ => 0, 0, none, [], none⟩

def dummyT : Tweet := ⟨"0", "u", "c", "", none⟩

/-- Two selection calls inside the cooldown window that opens at
100000000000. -/
def callsC : List SelectionCall :=
  [⟨100000000100, 0, 0, 0, 0⟩, ⟨100000000000 + 86399999, 0, 0, 0, 0⟩]

/-! # Theorems -/

set_option maxRecDepth 8000 in
/-- C2 (refuted, code bug): `truncateToCompleteSentence` can return a string
longer than 280 characters.  On 280 non-period characters followed by a
period (length 281), `lastIndexOf('.', 280)` finds the period at index 280
and `slice(0, 281)` keeps all 281 characters, so the "truncated" result
still has length 281 — contradicting the claim, the spec's "Truncation must
never exceed the maximum length", and the function's own doc comment. -/
theorem C2_truncate_exceeds_limit :
    (List.replicate 280 'a' ++ ['.']).length = 281 ∧
    (Willy.truncateToCompleteSentence (List.replicate 280 'a' ++ ['.'])).length = 281 ∧
    Willy.MAX_TWEET_LENGTH = 280 := by
  decide

/-- C8 (counterexample): a user with no recorded entries is *not* always
permitted — at `now = 0` with the default limits, the elapsed-time test
`now - 0 ≥ minTimeBetweenReplies` fails, so `canReplyToUser` returns
`false` for a completely fresh user. -/
theorem C8_counterexample :
    Willy.canReplyToUser Willy.limitsD Willy.rate0 0 "alice" = false ∧
    Willy.rate0.recentReplies.lookup "alice" = none ∧
    Willy.rate0.lastReplyTime.lookup "alice" = none := by
  decide

/-- C8 (amended): `canReplyToUser(userId)` returns true iff the recorded
reply count is below `maxRepliesPerUser` and at least
`minTimeBetweenReplies` has elapsed since the recorded last reply, with
missing entries defaulting to count 0 and timestamp 0; a user with no
recorded entries is therefore permitted whenever `maxRepliesPerUser` is
positive and `now` is at least `minTimeBetweenReplies` past the epoch. -/
theorem C8_can_reply_spec (limits : Willy.InteractionLimits)
    (rate : Willy.RateState) (now : Int) (userId : String) :
    (Willy.canReplyToUser limits rate now userId = true ↔
      (Willy.mapGetD rate.recentReplies userId 0 < limits.maxRepliesPerUser ∧
       limits.minTimeBetweenReplies ≤ now - Willy.mapGetD rate.lastReplyTime userId 0)) ∧
    (rate.recentReplies.lookup userId = none →
     rate.lastReplyTime.lookup userId = none →
     0 < limits.maxRepliesPerUser →
     limits.minTimeBetweenReplies ≤ now →
     Willy.canReplyToUser limits rate now userId = true) := by
  constructor
  · simp [Willy.canReplyToUser]
  · intro h1 h2 h3 h4
    simp [Willy.canReplyToUser, Willy.mapGetD, h1, h2, h3, h4]

/-- C8 (witness): with the default limits, empty maps and a realistic
clock, a fresh user is permitted. -/
theorem C8_witness :
    Willy.canReplyToUser Willy.limitsD Willy.rate0 1000000000000 "alice" = true :=
  (C8_can_reply_spec Willy.limitsD Willy.rate0 1000000000000 "alice").2
    rfl rfl (by decide) (by decide)

/-- A type whose cooldown window is still open can never fire, whatever the
draw. -/
theorem shouldTrigger_false_of_cooldown (sp : Willy.SpecialTable)
    (l : String → Int) (cd : Int) (ty : String) (now : Int) (d : ℚ)
    (h : now - l ty < cd) :
    Willy.shouldTriggerSpecialInteraction sp l cd ty now d = false := by
  unfold Willy.shouldTriggerSpecialInteraction
  cases hl : sp.lookup ty with
  | none => simp
  | some i => simp [h]

/-- A selection step either does nothing, or fires exactly one type `ty`:
it returns a response carrying `ty` after `ty` passed the trigger gate, and
updates the stamp map at `ty` only. -/
theorem trySpecial_cases (sp : Willy.SpecialTable) (cd : Int) (l : String → Int)
    (now : Int) (ti : Nat) (d : ℚ) (tIx pIx : Nat) :
    Willy.trySpecialInteraction sp cd l now ti d tIx pIx = (none, l) ∨
    ∃ ty resp,
      Willy.trySpecialInteraction sp cd l now ti d tIx pIx =
        (some resp, fun x => if x = ty then now else l x) ∧
      resp.interactionType = some ty ∧
      Willy.shouldTriggerSpecialInteraction sp l cd ty now d = true := by
  unfold Willy.trySpecialInteraction
  cases hs : Willy.sample (sp.map Prod.fst) ti with
  | none => exact Or.inl rfl
  | some randomType =>
    dsimp only
    by_cases htr : Willy.shouldTriggerSpecialInteraction sp l cd randomType now d = true
    · rw [if_pos htr]
      unfold Willy.generateSpecialTweet
      cases hlk : sp.lookup randomType with
      | none => exact Or.inl rfl
      | some i =>
        dsimp only
        cases ht : Willy.sample i.templates tIx with
        | none => exact Or.inl rfl
        | some tpl =>
          cases hp : Willy.sample i.topics pIx with
          | none => exact Or.inl rfl
          | some top =>
            dsimp only
            by_cases he : (tpl = "" || top = "") = true
            · rw [if_pos he]
              exact Or.inl rfl
            · rw [if_neg he]
              exact Or.inr ⟨randomType, _, rfl, rfl, htr⟩
    · simp only [Bool.not_eq_true] at htr
      rw [htr]
      exact Or.inl rfl

/-- One selection call inside an open cooldown window for `T` neither
re-triggers `T` nor moves `T`'s stamp. -/
theorem trySpecial_step_preserves (sp : Willy.SpecialTable) (cd : Int)
    (l : String → Int) (now : Int) (ti : Nat) (d : ℚ) (tIx pIx : Nat)
    (T : String) (t0 : Int) (hstamp : l T = t0) (hwin : now < t0 + cd) :
    (Willy.trySpecialInteraction sp cd l now ti d tIx pIx).2 T = t0 ∧
    (∀ resp, (Willy.trySpecialInteraction sp cd l now ti d tIx pIx).1 = some resp →
      resp.interactionType ≠ some T) := by
  have hcool : Willy.shouldTriggerSpecialInteraction sp l cd T now d = false :=
    shouldTrigger_false_of_cooldown sp l cd T now d (by omega)
  rcases trySpecial_cases sp cd l now ti d tIx pIx with heq | ⟨ty, resp, heq, hty, htrig⟩
  · rw [heq]
    exact ⟨hstamp, by intro r hr; cases hr⟩
  · have htyT : ty ≠ T := by
      intro he
      rw [he, hcool] at htrig
      cases htrig
    rw [heq]
    constructor
    · simp only []
      rw [if_neg (fun hTt => htyT hTt.symm), hstamp]
    · intro r hr
      cases hr
      rw [hty]
      intro hcon
      exact htyT (Option.some.inj hcon)

/-- C3 (confirmed): once a special interaction `T` has its cooldown stamp at
`t0`, no selection call strictly before `t0 + cooldown` triggers `T` again,
for any sequence of random draws, and `T`'s stamp is still `t0` afterwards. -/
theorem C3_cooldown_no_retrigger (specials : Willy.SpecialTable) (cooldown : Int)
    (T : String) (t0 : Int) (calls : List Willy.SelectionCall)
    (lastSpecial : String → Int)
    (hstamp : lastSpecial T = t0)
    (hwin : ∀ c ∈ calls, c.now < t0 + cooldown) :
    (Willy.runSelections specials cooldown lastSpecial calls).1 T = t0 ∧
    (∀ r ∈ (Willy.runSelections specials cooldown lastSpecial calls).2,
      ∀ resp, r = some resp → resp.interactionType ≠ some T) := by
  induction calls generalizing lastSpecial with
  | nil => simp [Willy.runSelections, hstamp]
  | cons c cs ih =>
    have hc := hwin c (List.mem_cons_self c cs)
    have hstep := trySpecial_step_preserves specials cooldown lastSpecial c.now
      c.typeIdx c.draw c.tIdx c.topIdx T t0 hstamp hc
    have ihh := ih _ hstep.1 (fun x hx => hwin x (List.mem_cons_of_mem _ hx))
    constructor
    · simpa [Willy.runSelections] using ihh.1
    · intro r hr resp hresp
      subst hresp
      simp only [Willy.runSelections, List.mem_cons] at hr
      rcases hr with hr | hr
      · exact hstep.2 resp hr.symm
      · exact ihh.2 (some resp) hr resp rfl

/-- C3 (witness): with a one-entry table of probability 1 and a 24h
cooldown stamped at 100000000000, two later calls inside the window leave
the stamp unchanged. -/
theorem C3_witness :
    (Willy.runSelections Willy.specialsC 86400000 (fun _ => 100000000000)
      Willy.callsC).1 "tate" = 100000000000 :=
  (C3_cooldown_no_retrigger Willy.specialsC 86400000 "tate" 100000000000
    Willy.callsC (fun _ => 100000000000) rfl (by decide)).1

/-- Each level of `processThread` performs one visit and recurses at most
once with one unit of fuel less, so the total number of visits is bounded
by the initial fuel plus one. -/
theorem processThread_visits (g : String → Option Willy.Tweet) (fuel : Nat)
    (t : Willy.Tweet) (acc : Willy.ThreadAcc) :
    (Willy.processThread g fuel t acc).visits ≤ acc.visits + fuel + 1 := by
  induction fuel generalizing t acc with
  | zero => simp [Willy.processThread]
  | succ n ih =>
    unfold Willy.processThread
    by_cases hv : t.id ∈ acc.visited
    · simp only [if_pos hv]
      omega
    · simp only [if_neg hv]
      cases hr : t.inReplyToStatusId with
      | none => dsimp only; omega
      | some parentId =>
        dsimp only
        cases hg : g parentId with
        | none => dsimp only; omega
        | some p =>
          dsimp only
          have := ih p ⟨t.id :: acc.visited, t :: acc.thread, acc.visits + 1⟩
          dsimp only at this
          omega

/-- `processThread` preserves the invariant that every id in the thread is
recorded in the visited set and that the thread contains no duplicate ids:
an id is added to both together, and only when it is not yet visited. -/
theorem processThread_inv (g : String → Option Willy.Tweet) (fuel : Nat)
    (t : Willy.Tweet) (acc : Willy.ThreadAcc)
    (hsub : ∀ tw ∈ acc.thread, tw.id ∈ acc.visited)
    (hnd : (acc.thread.map Willy.Tweet.id).Nodup) :
    (∀ tw ∈ (Willy.processThread g fuel t acc).thread,
      tw.id ∈ (Willy.processThread g fuel t acc).visited) ∧
    ((Willy.processThread g fuel t acc).thread.map Willy.Tweet.id).Nodup := by
  induction fuel generalizing t acc with
  | zero => exact ⟨hsub, hnd⟩
  | succ n ih =>
    unfold Willy.processThread
    by_cases hv : t.id ∈ acc.visited
    · simp only [if_pos hv]
      exact ⟨hsub, hnd⟩
    · simp only [if_neg hv]
      have hsub' : ∀ tw ∈ t :: acc.thread, tw.id ∈ t.id :: acc.visited := by
        intro tw htw
        rcases List.mem_cons.mp htw with h | h
        · rw [h]; exact List.mem_cons_self _ _
        · exact List.mem_cons_of_mem _ (hsub tw h)
      have hnd' : ((t :: acc.thread).map Willy.Tweet.id).Nodup := by
        rw [List.map_cons, List.nodup_cons]
        refine ⟨?_, hnd⟩
        intro hmem
        rcases List.mem_map.mp hmem with ⟨tw, htw, hid⟩
        exact hv (hid ▸ hsub tw htw)
      cases hr : t.inReplyToStatusId with
      | none => exact ⟨hsub', hnd'⟩
      | some parentId =>
        dsimp only
        cases hg : g parentId with
        | none => exact ⟨hsub', hnd'⟩
        | some p =>
          dsimp only
          exact ih p ⟨t.id :: acc.visited, t :: acc.thread, acc.visits + 1⟩ hsub' hnd'

/-- C4 (confirmed): for every feed, every depth bound and every candidate,
`buildConversationThread` performs at most `maxReplies + 1` visits and
returns a thread with pairwise-distinct post ids; in particular a candidate
whose `inReplyToStatusId` is its own id (with the feed returning a tweet of
that same id, or failing) yields the single-element thread, with no
infinite loop. -/
theorem C4_thread_nodup_bounded (g : String → Option Willy.Tweet)
    (maxReplies : Nat) (t : Willy.Tweet) :
    ((Willy.buildConversationThread g maxReplies t).thread.map Willy.Tweet.id).Nodup ∧
    (Willy.buildConversationThread g maxReplies t).visits ≤ maxReplies + 1 ∧
    (∀ n, maxReplies = n + 1 → t.inReplyToStatusId = some t.id →
      (∀ p, g t.id = some p → p.id = t.id) →
      (Willy.buildConversationThread g maxReplies t).thread = [t]) := by
  refine ⟨?_, ?_, ?_⟩
  · exact (processThread_inv g maxReplies t ⟨[], [], 0⟩ (by simp) (by simp)).2
  · simpa using processThread_visits g maxReplies t ⟨[], [], 0⟩
  · intro n hn hself hfeed
    subst hn
    show (Willy.processThread g (n + 1) t ⟨[], [], 0⟩).thread = [t]
    unfold Willy.processThread
    rw [if_neg (List.not_mem_nil t.id), hself]
    dsimp only
    cases hg : g t.id with
    | none => rfl
    | some p =>
      have hp := hfeed p hg
      dsimp only
      cases n with
      | zero => rfl
      | succ m =>
        unfold Willy.processThread
        rw [if_pos (by rw [hp]; exact List.mem_cons_self _ _)]

/-- C4 (witness): the concrete self-replying candidate produces the
one-element thread. -/
theorem C4_witness :
    (Willy.buildConversationThread Willy.selfFeed 2 Willy.twSelf).thread = [Willy.twSelf] :=
  (C4_thread_nodup_bounded Willy.selfFeed 2 Willy.twSelf).2.2 1 rfl rfl
    (fun p hp => by
      have h := Option.some.inj
        ((rfl : Willy.selfFeed Willy.twSelf.id = some Willy.twSelf).symm.trans hp)
      rw [← h])

/-- Content generation never touches the send record, the schedule's
`lastPostTime` or the persisted last-post cache entry: it only ever updates
the cooldown stamps and (on a timeline-cache miss) the cached timeline. -/
theorem generateTweetContent_frame (sp : Willy.SpecialTable) (cd : Int)
    (st : Willy.PostClientState) (now : Int) (ti : Nat) (d : ℚ) (tIx pIx : Nat)
    (gt : String) (ft : List Willy.Tweet) :
    (Willy.generateTweetContent sp cd st now ti d tIx pIx gt ft).2.sentTweets
      = st.sentTweets ∧
    (Willy.generateTweetContent sp cd st now ti d tIx pIx gt ft).2.lastPostTime
      = st.lastPostTime ∧
    (Willy.generateTweetContent sp cd st now ti d tIx pIx gt ft).2.lastPostCache
      = st.lastPostCache := by
  unfold Willy.generateTweetContent
  cases hs : (Willy.trySpecialInteraction sp cd st.lastSpecial now ti d tIx pIx).1 with
  | some resp => simp [hs]
  | none =>
    cases hc : st.cachedTimeline with
    | some tl => simp [hs, hc]
    | none => simp [hs, hc]

/-- When the run is a dry run or the send call fails, `generateNewTweet`
returns the post-generation state unchanged: no branch after the send
suppression executes. -/
theorem generateNewTweet_aborts (sp : Willy.SpecialTable) (cd : Int)
    (st : Willy.PostClientState) (dryRun : Bool) (now : Int) (ti : Nat) (d : ℚ)
    (tIx pIx : Nat) (gt : String) (ft : List Willy.Tweet) (sendOk : Bool)
    (rt : Willy.Tweet) (habort : dryRun = true ∨ sendOk = false) :
    Willy.generateNewTweet sp cd st dryRun now ti d tIx pIx gt ft sendOk rt =
      (Willy.generateTweetContent sp cd st now ti d tIx pIx gt ft).2 := by
  unfold Willy.generateNewTweet
  by_cases hc : (Willy.generateTweetContent sp cd st now ti d tIx pIx gt ft).1.content = ""
  · simp [hc]
  · rcases habort with h | h
    · subst h
      simp [hc]
    · subst h
      cases dryRun <;> simp [hc]

/-- A generation run whose response carries a special-interaction type has
stamped that type's cooldown timestamp to `now` in the resulting state. -/
theorem generateTweetContent_special_stamp (sp : Willy.SpecialTable) (cd : Int)
    (st : Willy.PostClientState) (now : Int) (ti : Nat) (d : ℚ) (tIx pIx : Nat)
    (gt : String) (ft : List Willy.Tweet) (T : String)
    (h : (Willy.generateTweetContent sp cd st now ti d tIx pIx gt ft).1.interactionType
      = some T) :
    (Willy.generateTweetContent sp cd st now ti d tIx pIx gt ft).2.lastSpecial T = now := by
  rcases trySpecial_cases sp cd st.lastSpecial now ti d tIx pIx with
    heq | ⟨ty, resp, heq, hty, _⟩
  · unfold Willy.generateTweetContent at h ⊢
    rw [heq] at h ⊢
    simp at h
  · unfold Willy.generateTweetContent at h ⊢
    rw [heq] at h ⊢
    dsimp only at h ⊢
    rw [hty] at h
    have hTy : T = ty := (Option.some.inj h).symm
    subst hTy
    simp

/-- C7 (counterexample): in dry-run mode a fired special interaction still
mutates the client state: the cooldown stamp for `tate` moves from 0 to the
current time even though nothing is sent — so dry run does *not* leave all
non-send state unchanged. -/
theorem C7_counterexample :
    (Willy.generateNewTweet Willy.specialsC 86400000 Willy.pst0 true 100000000000
      0 0 0 0 "" [] true Willy.dummyT).lastSpecial "tate" = 100000000000 ∧
    Willy.pst0.lastSpecial "tate" = 0 ∧
    (Willy.generateNewTweet Willy.specialsC 86400000 Willy.pst0 true 100000000000
      0 0 0 0 "" [] true Willy.dummyT).sentTweets = [] := by
  refine ⟨by decide, rfl, by decide⟩

/-- C7 (amended): a dry run performs no send call, does not persist a
last-post cache entry and leaves `lastPostTime` unchanged, but it still
runs the full selection/generation path including that path's own state
effects (special-interaction cooldown stamping, timeline-cache fill). -/
theorem C7_dry_run_frame (sp : Willy.SpecialTable) (cd : Int)
    (st : Willy.PostClientState) (now : Int) (ti : Nat) (d : ℚ) (tIx pIx : Nat)
    (gt : String) (ft : List Willy.Tweet) (sendOk : Bool) (rt : Willy.Tweet) :
    (Willy.generateNewTweet sp cd st true now ti d tIx pIx gt ft sendOk rt).sentTweets
      = st.sentTweets ∧
    (Willy.generateNewTweet sp cd st true now ti d tIx pIx gt ft sendOk rt).lastPostTime
      = st.lastPostTime ∧
    (Willy.generateNewTweet sp cd st true now ti d tIx pIx gt ft sendOk rt).lastPostCache
      = st.lastPostCache := by
  rw [generateNewTweet_aborts sp cd st true now ti d tIx pIx gt ft sendOk rt (Or.inl rfl)]
  exact generateTweetContent_frame sp cd st now ti d tIx pIx gt ft

/-- C9 (confirmed): `generateSpecialTweet` stamps the cooldown at
content-generation time, before any send; hence a dry run or a failed send
still consumes the cooldown — the stamp equals `now`, nothing was sent, and
the type cannot trigger again within the cooldown window. -/
theorem C9_stamp_survives_failed_send (sp : Willy.SpecialTable) (cd : Int)
    (st : Willy.PostClientState) (dryRun : Bool) (now : Int) (ti : Nat) (d : ℚ)
    (tIx pIx : Nat) (gt : String) (ft : List Willy.Tweet) (sendOk : Bool)
    (rt : Willy.Tweet) (T : String)
    (hfired : (Willy.generateTweetContent sp cd st now ti d tIx pIx gt ft).1.interactionType
      = some T)
    (habort : dryRun = true ∨ sendOk = false) :
    (Willy.generateNewTweet sp cd st dryRun now ti d tIx pIx gt ft sendOk rt).lastSpecial T
      = now ∧
    (Willy.generateNewTweet sp cd st dryRun now ti d tIx pIx gt ft sendOk rt).sentTweets
      = st.sentTweets ∧
    (∀ t' d', t' - now < cd →
      Willy.shouldTriggerSpecialInteraction sp
        (Willy.generateNewTweet sp cd st dryRun now ti d tIx pIx gt ft sendOk rt).lastSpecial
        cd T t' d' = false) := by
  rw [generateNewTweet_aborts sp cd st dryRun now ti d tIx pIx gt ft sendOk rt habort]
  have hstamp := generateTweetContent_special_stamp sp cd st now ti d tIx pIx gt ft T hfired
  refine ⟨hstamp, (generateTweetContent_frame sp cd st now ti d tIx pIx gt ft).1, ?_⟩
  intro t' d' hwin
  exact shouldTrigger_false_of_cooldown sp _ cd T t' d' (by omega)

/-- C9 (witness): a failed send after a fired special interaction leaves the
cooldown stamped and nothing sent. -/
theorem C9_witness :
    (Willy.generateNewTweet Willy.specialsC 86400000 Willy.pst0 false 100000000000
      0 0 0 0 "" [] false Willy.dummyT).lastSpecial "tate" = 100000000000 ∧
    (Willy.generateNewTweet Willy.specialsC 86400000 Willy.pst0 false 100000000000
      0 0 0 0 "" [] false Willy.dummyT).sentTweets = Willy.pst0.sentTweets :=
  ⟨(C9_stamp_survives_failed_send Willy.specialsC 86400000 Willy.pst0 false
      100000000000 0 0 0 0 "" [] false Willy.dummyT "tate" (by decide) (Or.inr rfl)).1,
   (C9_stamp_survives_failed_send Willy.specialsC 86400000 Willy.pst0 false
      100000000000 0 0 0 0 "" [] false Willy.dummyT "tate" (by decide) (Or.inr rfl)).2.1⟩

/-- C10 (confirmed): two consecutive calls to
`shouldGenerateSpecialInteraction` never both return a special-interaction
type: a call that returns a type stores it, and the immediately following
call clears the stored type and returns `null`. -/
theorem C10_no_back_to_back (last : Option String) (r1 r2 : ℚ) (ty : String) :
    (Willy.shouldGenerateSpecialInteraction last r1).1 = some ty →
    (Willy.shouldGenerateSpecialInteraction
      (Willy.shouldGenerateSpecialInteraction last r1).2 r2).1 = none := by
  intro h
  cases last with
  | some s => simp [Willy.shouldGenerateSpecialInteraction] at h
  | none =>
    unfold Willy.shouldGenerateSpecialInteraction at h ⊢
    cases hp : Willy.pickInteraction Willy.SPECIAL_INTERACTIONS 0 r1 with
    | none => simp [hp] at h
    | some t' => simp [hp]

/-- C1 (counterexample): with the default limits, checkpoint at id 5 and a
single candidate of id 10, a probability draw of 0.9 (above the 0.5 reply
probability) skips the candidate via `continue` *before* the checkpoint
assignment, so after the batch `lastCheckedTweetId` is still 5 — not the
maximum candidate id seen (10) — and the candidate will be reconsidered in
the next batch.  This refutes the claimed unconditional advance. -/
theorem C1_counterexample :
    Willy.handleTwitterInteractions Willy.limitsD "self" 1000000000000 Willy.st5
      [Willy.tw10] (fun _ => Willy.pNine) (fun _ => .ok Willy.Action.respond) = Willy.st5 ∧
    Willy.st5.lastCheckedTweetId = some 5 ∧
    Willy.jsBigInt Willy.tw10.id = 10 ∧
    Willy.limitsD.replyProbability < Willy.pNine := by
  decide

/-- C1 (amended): `lastCheckedTweetId` is advanced to the candidate's id
only when the candidate passes the rate-limit gates and the probability
draw and its handling completes — then regardless of the
RESPOND/IGNORE/STOP/ERROR outcome; a candidate skipped by rate limits or by
the probability draw leaves the checkpoint (and all other state) unchanged
and can be reconsidered in a later batch. -/
theorem C1_checkpoint_advance (limits : Willy.InteractionLimits) (now : Int)
    (st : Willy.InteractionState) (t : Willy.Tweet) (d : ℚ)
    (h : Except Unit Willy.Action) :
    Willy.isConsidered st t = true →
    (((Willy.canReplyToUser limits st.rate now t.userId &&
       Willy.canReplyInThread limits st.rate t.conversationId) = false →
      Willy.processCandidate limits now st t d h = .ok st) ∧
     (limits.replyProbability < d →
      Willy.processCandidate limits now st t d h = .ok st) ∧
     (∀ a : Willy.Action,
      (Willy.canReplyToUser limits st.rate now t.userId &&
       Willy.canReplyInThread limits st.rate t.conversationId) = true →
      ¬ limits.replyProbability < d →
      Willy.processCandidate limits now st t d (.ok a) =
        .ok { lastCheckedTweetId := some (Willy.jsBigInt t.id),
              rate := if a = Willy.Action.respond
                      then Willy.updateInteractionTracking st.rate t.userId
                        t.conversationId now
                      else st.rate })) := by
  intro hc
  refine ⟨?_, ?_, ?_⟩
  · intro hg
    simp [Willy.processCandidate, hc, hg]
  · intro hp
    by_cases hg : (Willy.canReplyToUser limits st.rate now t.userId &&
        Willy.canReplyInThread limits st.rate t.conversationId) = true
    · simp [Willy.processCandidate, hc, hg, hp]
    · simp only [Bool.not_eq_true] at hg
      simp [Willy.processCandidate, hc, hg]
  · intro a hg hp
    simp [Willy.processCandidate, hc, hg, hp]

/-- C1 (witness): an IGNORE outcome still advances the checkpoint to the
candidate's id once the gates have been passed. -/
theorem C1_checkpoint_advance_witness :
    Willy.processCandidate Willy.limitsD 1000000000000 Willy.st5 Willy.tw10 0
      (.ok Willy.Action.ignore) =
      .ok { lastCheckedTweetId := some (Willy.jsBigInt Willy.tw10.id),
            rate := if Willy.Action.ignore = Willy.Action.respond
                    then Willy.updateInteractionTracking Willy.st5.rate
                      Willy.tw10.userId Willy.tw10.conversationId 1000000000000
                    else Willy.st5.rate } :=
  (C1_checkpoint_advance Willy.limitsD 1000000000000 Willy.st5 Willy.tw10 0
    (.ok Willy.Action.ignore) (by decide)).2.2 Willy.Action.ignore (by decide) (by decide)

/-- C5 (counterexample): the `try`/`catch` of `handleTwitterInteractions`
wraps the whole batch loop, so an error thrown while handling the first
candidate aborts the processing of the remaining candidates of that batch:
with the erroring candidate present the batch leaves the state untouched,
while the second candidate alone would have advanced the checkpoint to its
id 20 (and recorded a reply). -/
theorem C5_counterexample :
    Willy.handleBatch Willy.limitsD 1000000000000 Willy.st5
      [(Willy.tw10, 0, .error ()), (Willy.tw20, 0, .ok Willy.Action.respond)] = Willy.st5 ∧
    (Willy.handleBatch Willy.limitsD 1000000000000 Willy.st5
      [(Willy.tw20, 0, .ok Willy.Action.respond)]).lastCheckedTweetId = some 20 := by
  decide

/-- C5 (amended): an error thrown while handling a candidate is caught at
the batch level: the batch function stays total (the polling loop is never
terminated by it) and returns the state reached so far, but the remaining
candidates of that batch — whatever they are — are not processed. -/
theorem C5_batch_error_contained (limits : Willy.InteractionLimits) (now : Int)
    (st : Willy.InteractionState) (t : Willy.Tweet) (d : ℚ)
    (rest : List (Willy.Tweet × ℚ × Except Unit Willy.Action)) :
    Willy.isConsidered st t = true →
    (Willy.canReplyToUser limits st.rate now t.userId &&
     Willy.canReplyInThread limits st.rate t.conversationId) = true →
    ¬ limits.replyProbability < d →
    Willy.handleBatch limits now st ((t, d, .error ()) :: rest) = st := by
  intro hc hg hp
  simp [Willy.handleBatch, Willy.processCandidate, hc, hg, hp]

/-- C5 (witness): the containment theorem applied to the concrete
counterexample batch. -/
theorem C5_batch_error_contained_witness :
    Willy.handleBatch Willy.limitsD 1000000000000 Willy.st5
      [(Willy.tw10, 0, .error ()), (Willy.tw20, 0, .ok Willy.Action.respond)] = Willy.st5 :=
  C5_batch_error_contained Willy.limitsD 1000000000000 Willy.st5 Willy.tw10 0
    [(Willy.tw20, 0, .ok Willy.Action.respond)] (by decide) (by decide) (by decide)

/-- C6 (confirmed): the rate-limit state after one candidate is the result
of exactly one `updateInteractionTracking` call when the candidate was
considered, passed both rate-limit gates and the probability draw, and its
handling completed with a RESPOND outcome — and is unchanged in every other
completed case (skips, IGNORE, STOP, ERROR). -/
theorem C6_rate_update_iff (limits : Willy.InteractionLimits) (now : Int)
    (st : Willy.InteractionState) (t : Willy.Tweet) (d : ℚ) (a : Willy.Action)
    (st' : Willy.InteractionState) :
    Willy.processCandidate limits now st t d (.ok a) = .ok st' →
    st'.rate =
      if Willy.isConsidered st t = true ∧
         (Willy.canReplyToUser limits st.rate now t.userId &&
          Willy.canReplyInThread limits st.rate t.conversationId) = true ∧
         ¬ limits.replyProbability < d ∧
         a = Willy.Action.respond
      then Willy.updateInteractionTracking st.rate t.userId t.conversationId now
      else st.rate := by
  intro h
  by_cases hc : Willy.isConsidered st t = true
  · by_cases hg : (Willy.canReplyToUser limits st.rate now t.userId &&
        Willy.canReplyInThread limits st.rate t.conversationId) = true
    · by_cases hp : limits.replyProbability < d
      · simp [Willy.processCandidate, hc, hg, hp] at h
        simp [← h, hc, hg, hp]
      · by_cases ha : a = Willy.Action.respond
        · simp [Willy.processCandidate, hc, hg, hp, ha] at h
          simp [← h, hc, hg, hp, ha]
        · simp [Willy.processCandidate, hc, hg, hp, ha] at h
          simp [← h, hc, hg, hp, ha]
    · simp [Willy.processCandidate, hc, hg] at h
      simp [← h, hg]
  · simp [Willy.processCandidate, hc] at h
    simp [← h, hc]

/-- C6 (witness): a RESPOND outcome at a gate-passing candidate yields
exactly the incremented tracking state. -/
theorem C6_rate_update_iff_witness :
    Willy.st10r.rate =
      if Willy.isConsidered Willy.st5 Willy.tw10 = true ∧
         (Willy.canReplyToUser Willy.limitsD Willy.st5.rate 1000000000000
            Willy.tw10.userId &&
          Willy.canReplyInThread Willy.limitsD Willy.st5.rate
            Willy.tw10.conversationId) = true ∧
         ¬ Willy.limitsD.replyProbability < 0 ∧
         Willy.Action.respond = Willy.Action.respond
      then Willy.updateInteractionTracking Willy.st5.rate Willy.tw10.userId
        Willy.tw10.conversationId 1000000000000
      else Willy.st5.rate :=
  C6_rate_update_iff Willy.limitsD 1000000000000 Willy.st5 Willy.tw10 0
    Willy.Action.respond Willy.st10r (by decide)

/-- C10 (witness): a draw of 0.1 fires the first entry (`tate`,
cumulative probability 0.15), and the immediately following call returns
nothing. -/
theorem C10_witness :
    (Willy.shouldGenerateSpecialInteraction none (1/10)).1 = some "tate" ∧
    (Willy.shouldGenerateSpecialInteraction
      (Willy.shouldGenerateSpecialInteraction none (1/10)).2 (1/10)).1 = none :=
  ⟨by norm_num [Willy.shouldGenerateSpecialInteraction, Willy.pickInteraction,
     Willy.SPECIAL_INTERACTIONS],
   C10_no_back_to_back none (1/10) (1/10) "tate"
    (by norm_num [Willy.shouldGenerateSpecialInteraction, Willy.pickInteraction,
       Willy.SPECIAL_INTERACTIONS])⟩

end Willy
